import Mathlib

/-!
Verification of the job-lifecycle manager and registration client of the
`mirow-delivery-analysis-template` repository (`src/app.py`,
`src/analysis/run.py`, `src/analysis/metadata/{inputs,outputs}.py`).

The Python service is shallowly embedded: the module-level `jobs` dictionary
becomes an association list, each FastAPI handler becomes a pure function on
that table, `HTTPException` becomes an error value, and the background task
`process_job` becomes a state-passing function whose exception flow is an
`Except`.  The analysis callable invoked at `app.py:306` is abstracted by a
`RunOutcome` (the progress reports it makes, the files it writes and its
return/raise behaviour); the concrete outcome of the call actually written in
`app.py` is derived from Python's argument-binding rules applied to the
signature of `analysis.run.run_analysis`.
-/

/-- Job status strings used in `src/app.py`:
`pending`, `running`, `completed`, `failed`, `cancelled`. -/
inductive Status where
  | pending
  | running
  | completed
  | failed
  | cancelled
deriving DecidableEq, Repr

/-- The string stored in `job["status"]` for each status. -/
def Status.str : Status → String
  | .pending => "pending"
  | .running => "running"
  | .completed => "completed"
  | .failed => "failed"
  | .cancelled => "cancelled"

/-- JSON-like Python values appearing in responses and job records. -/
inductive JVal where
  | null
  | str (s : String)
  | num (q : ℚ)
  | bool (b : Bool)
  | arr (xs : List JVal)
  | obj (fields : List (String × JVal))

/-- Python `==` comparison of a value against a string literal: only a `str`
of equal contents compares equal (a dict, list or number never does). -/
def JVal.isStr (v : JVal) (s : String) : Bool :=
  match v with
  | .str t => t == s
  | _ => false

/-- An output-file descriptor as built by `step3_extract_outputs`:
an ordered Python dict, modelled as an association list. -/
abbrev Descriptor : Type := List (String × JVal)

/-- One job record of the module-level `jobs` dictionary in `src/app.py`.
The keys ever written by the source are exactly `status`, `progress`,
`message`, `error` and `output_files`; keys not yet written are `none`. -/
structure JobRec where
  status : Status
  progress : Option ℚ
  message : String
  error : Option String := none
  output_files : Option (List Descriptor) := none

/-- The in-memory `jobs = {}` table, keyed by job id; an insertion prepends,
so `List.lookup` sees the latest write for a key. -/
abbrev Jobs : Type := List (String × JobRec)

/-- Look up a job id in the table (`job_id in jobs` / `jobs[job_id]`). -/
def Jobs.find (jobs : Jobs) (job_id : String) : Option JobRec :=
  List.lookup job_id jobs

/-- Overwrite (or insert) the record stored under a job id. -/
def Jobs.set (jobs : Jobs) (job_id : String) (rec : JobRec) : Jobs :=
  (job_id, rec) :: jobs

/-- `fastapi.HTTPException(status_code, detail)`. -/
structure HTTPException where
  status_code : ℕ
  detail : String
deriving DecidableEq, Repr

/-- The fresh record `{"status": "pending", "progress": 0.0,
"message": "Job submitted"}` stored by the `/analyze` handler. -/
def initialJob : JobRec :=
  { status := .pending, progress := some 0, message := "Job submitted" }

/-- The `POST /analyze` handler (`analyze` in `src/app.py`): stores the fresh
record under the generated id and returns the `AnalysisResponse` fields
`(job_id, status, message)`.  The background task is started separately. -/
def analyze (jobs : Jobs) (job_id : String) : Jobs × (String × String × String) :=
  (jobs.set job_id initialJob, (job_id, "pending", "Job submitted"))

/-- The `GET /status/{job_id}` handler: 404 when the id is unknown, otherwise
the serialized `JobStatus` response model, whose declared fields are exactly
`job_id`, `status`, `progress` and `output_files`. -/
def get_status (jobs : Jobs) (job_id : String) :
    Except HTTPException (List (String × JVal)) :=
  match jobs.find job_id with
  | none => .error ⟨404, "Job not found"⟩
  | some job =>
      .ok [("job_id", .str job_id),
           ("status", .str job.status.str),
           ("progress", match job.progress with
                        | none => .null
                        | some q => .num q),
           ("output_files", match job.output_files with
                            | none => .null
                            | some l => .arr (l.map JVal.obj))]

/-- The `GET /results/{job_id}` handler: 404 when unknown, 400 when the job is
not `completed`, otherwise the dict `{"job_id": ..., "output_files":
job.get("output_files", [])}`. -/
def get_results (jobs : Jobs) (job_id : String) :
    Except HTTPException (List (String × JVal)) :=
  match jobs.find job_id with
  | none => .error ⟨404, "Job not found"⟩
  | some job =>
      if job.status ≠ Status.completed then
        .error ⟨400, "Job not completed"⟩
      else
        .ok [("job_id", .str job_id),
             ("output_files", .arr ((job.output_files.getD []).map JVal.obj))]

/-- The `DELETE /jobs/{job_id}` handler: 404 when unknown, otherwise it sets
`jobs[job_id]["status"] = "cancelled"` unconditionally and answers
`{"message": "Job cancelled"}`. -/
def cancel_job (jobs : Jobs) (job_id : String) :
    Except HTTPException (Jobs × List (String × JVal)) :=
  match jobs.find job_id with
  | none => .error ⟨404, "Job not found"⟩
  | some job =>
      .ok (jobs.set job_id { job with status := .cancelled },
           [("message", .str "Job cancelled")])

/-! ## The background execution path (`process_job` and its three steps) -/

/-- Mutable per-job execution state: the job record together with the ordered
trace of values written to `job["progress"]` and to `job["status"]` (the
submit-time writes included), so that the sequence a polling reader can
observe is a statable object. -/
structure ExecState where
  job : JobRec
  ptrace : List ℚ
  strace : List Status

/-- `job["progress"] = q`. -/
def writeProgress (q : ℚ) (s : ExecState) : ExecState :=
  { s with job := { s.job with progress := some q }, ptrace := s.ptrace ++ [q] }

/-- `job["message"] = m`. -/
def writeMessage (m : String) (s : ExecState) : ExecState :=
  { s with job := { s.job with message := m } }

/-- `job["status"] = st`. -/
def writeStatus (st : Status) (s : ExecState) : ExecState :=
  { s with job := { s.job with status := st }, strace := s.strace ++ [st] }

/-- `job["error"] = e`. -/
def writeError (e : String) (s : ExecState) : ExecState :=
  { s with job := { s.job with error := some e } }

/-- `job["output_files"] = l`. -/
def setOutputFiles (l : List Descriptor) (s : ExecState) : ExecState :=
  { s with job := { s.job with output_files := some l } }

/-- Execution state of a job right after the `/analyze` handler stored it:
the fresh record, with its `progress = 0.0` and `status = pending` writes
already on the traces. -/
def submittedState : ExecState :=
  { job := initialJob, ptrace := [0], strace := [.pending] }

/-- The filesystem, as far as the service observes it: a map from path to
file size (`path.exists()` and `path.stat().st_size`). -/
abbrev Fs : Type := List (String × ℕ)

/-- `DATA_DIR = Path(os.getenv("DATA_DIR", "./analysis/data"))` under the
default environment. -/
def DATA_DIR : String := "./analysis/data"

/-- `INPUTS_DIR = DATA_DIR / "inputs"` (`analysis/metadata/inputs.py`). -/
def INPUTS_DIR : String := DATA_DIR ++ "/inputs"

/-- `OUTPUTS_DIR = DATA_DIR / "outputs"` (`analysis/metadata/outputs.py`). -/
def OUTPUTS_DIR : String := DATA_DIR ++ "/outputs"

/-- The per-file metadata dict of `analysis/metadata/{inputs,outputs}.py`. -/
structure FileInfo where
  dtype : String
  name : String
  description : String
  path : String
  required : Bool
deriving DecidableEq, Repr

/-- `get_input_files(job_id)` from `analysis/metadata/inputs.py`. -/
def get_input_files (job_id : String) : List (String × FileInfo) :=
  [("file1",
    { dtype := "csv", name := "file1.csv",
      description := "First CSV input file",
      path := INPUTS_DIR ++ "/" ++ job_id ++ "/file1.csv", required := true }),
   ("file2",
    { dtype := "csv", name := "file2.csv",
      description := "Second CSV input file",
      path := INPUTS_DIR ++ "/" ++ job_id ++ "/file2.csv", required := true })]

/-- `get_output_files(job_id)` from `analysis/metadata/outputs.py`. -/
def get_output_files (job_id : String) : List (String × FileInfo) :=
  [("output1",
    { dtype := "xlsx", name := "output1.xlsx",
      description := "First processed file saved as XLSX",
      path := OUTPUTS_DIR ++ "/" ++ job_id ++ "/output1.xlsx", required := true }),
   ("output2",
    { dtype := "xlsx", name := "output2.xlsx",
      description := "Second processed file saved as XLSX",
      path := OUTPUTS_DIR ++ "/" ++ job_id ++ "/output2.xlsx", required := true })]

/-- One parameter of a Python function signature: its name and whether it
carries a default value. -/
structure PyParam where
  pname : String
  hasDefault : Bool
deriving DecidableEq, Repr

/-- The signature of `analysis.run.run_analysis` — the function imported by
`app.py` via `from analysis.run import run_analysis`: four required
positional parameters and one keyword parameter with a default. -/
def run_analysis_params : List PyParam :=
  [⟨"input_files", false⟩, ⟨"parameters", false⟩, ⟨"output_files", false⟩,
   ⟨"processing_files", false⟩, ⟨"progress_callback", true⟩]

/-- Python call binding: the required parameters left unbound by a call that
passes `npos` positional arguments and keyword arguments named `kwnames`
(the callee raises `TypeError` naming them when this list is nonempty). -/
def missingRequiredArgs (params : List PyParam) (npos : ℕ)
    (kwnames : List String) : List String :=
  ((params.drop npos).filter
    (fun p => !p.hasDefault && !(kwnames.contains p.pname))).map PyParam.pname

/-- Abstracted behaviour of one invocation of the analysis callable: the
`(fraction, message)` progress reports it makes before returning or raising,
the files it writes, and its return value or raised exception. -/
structure RunOutcome where
  reports : List (ℚ × String)
  fsWrites : List (String × ℕ)
  ret : Except String JVal

/-- The concrete call `run_analysis(job_id, progress_callback=progress_callback)`
at `app.py:306`, resolved against the signature of
`analysis.run.run_analysis`: one positional argument and the
`progress_callback` keyword leave `parameters`, `output_files` and
`processing_files` unbound, so the call raises `TypeError` before the body
runs.  (Were binding to succeed, `input_files` would be bound to the job-id
string and the body would raise `AttributeError` at
`input_files.get("data.csv")`, after one report at fraction 0.1.) -/
def run_analysis_call (job_id : String) : RunOutcome :=
  let missing := missingRequiredArgs run_analysis_params 1 ["progress_callback"]
  if missing.isEmpty then
    { reports := [((1 : ℚ)/10, "Loading data...")], fsWrites := [],
      ret := .error ("AttributeError: str object has no attribute get: "
                      ++ job_id) }
  else
    { reports := [], fsWrites := [],
      ret := .error ("run_analysis() missing " ++ toString missing.length
                      ++ " required positional arguments: "
                      ++ String.intercalate ", " missing) }

/-- Rendering of a value inside an f-string (`f"... {status}"`); container
reprs are abstracted. -/
def JVal.pyRepr : JVal → String
  | .null => "None"
  | .str s => s
  | .num q => toString q
  | .bool b => if b then "True" else "False"
  | .arr _ => "list"
  | .obj _ => "dict"

/-- `step1_store_files`: progress/message writes and storing each uploaded
file under `INPUTS_DIR/<job_id>/<filename>`. -/
def step1_store_files (job_id : String) (files : List (String × ℕ))
    (fs : Fs) (s : ExecState) : Fs × ExecState :=
  let s := writeProgress ((1 : ℚ)/10) (writeMessage "Storing input files..." s)
  let fs := files.foldl
    (fun acc f => (INPUTS_DIR ++ "/" ++ job_id ++ "/" ++ f.1, f.2) :: acc) fs
  let s := writeMessage "Input files stored" (writeProgress ((3 : ℚ)/10) s)
  (fs, s)

/-- The `progress_callback` closure defined inside `step2_execute_analysis`:
maps an analysis fraction into `0.3 + fraction * 0.6` and overwrites the
message. -/
def progress_callback (pm : ℚ × String) (s : ExecState) : ExecState :=
  writeMessage pm.2 (writeProgress ((3 : ℚ)/10 + pm.1 * ((6 : ℚ)/10)) s)

/-- `step2_execute_analysis`: runs the analysis callable (abstracted by
`outcome`), applying its progress reports through `progress_callback`; then
raises if the callable raised or if its return value is not the string
`"completed"`. -/
def step2_execute_analysis (outcome : RunOutcome) (fs : Fs) (s : ExecState) :
    (Fs × ExecState) × Except String Unit :=
  let s := writeProgress ((3 : ℚ)/10) (writeMessage "Executing analysis..." s)
  let s := outcome.reports.foldl (fun st pm => progress_callback pm st) s
  let fs := outcome.fsWrites ++ fs
  match outcome.ret with
  | .error e => ((fs, s), .error e)
  | .ok v =>
      if v.isStr "completed" then
        ((fs, writeMessage "Analysis completed" (writeProgress ((9 : ℚ)/10) s)),
         .ok ())
      else
        ((fs, s), .error ("Analysis failed with status: " ++ v.pyRepr))

/-- One output descriptor dict as appended by `step3_extract_outputs`, in the
order the source writes its keys. -/
def mkDescriptor (key : String) (fi : FileInfo) (size : ℕ) : Descriptor :=
  [("key", .str key), ("filename", .str fi.name), ("dtype", .str fi.dtype),
   ("description", .str fi.description), ("path", .str fi.path),
   ("size", .num size), ("required", .bool fi.required)]

/-- `step3_extract_outputs`: collects, over the declared outputs of
`get_output_files`, a descriptor for each file that exists on disk. -/
def step3_extract_outputs (fs : Fs) (job_id : String) (s : ExecState) :
    ExecState × List Descriptor :=
  let s := writeProgress ((9 : ℚ)/10) (writeMessage "Extracting outputs..." s)
  let descs := (get_output_files job_id).filterMap
    (fun kf => match List.lookup kf.2.path fs with
               | none => none
               | some size => some (mkDescriptor kf.1 kf.2 size))
  let s := writeMessage "Outputs extracted" (writeProgress 1 s)
  (s, descs)

/-- The `try:` body of `process_job`: status to `running`, the three steps in
order, then the completion writes; the `Except` component is the exception
escaping the body, the state keeps every write made before it was raised. -/
def process_job_try (outcome : RunOutcome) (job_id : String)
    (files : List (String × ℕ)) (fs : Fs) (s : ExecState) :
    ExecState × Except String Unit :=
  let s := writeMessage "Starting analysis workflow..." (writeStatus .running s)
  let p1 := step1_store_files job_id files fs s
  let p2 := step2_execute_analysis outcome p1.1 p1.2
  match p2.2 with
  | .error e => (p2.1.2, .error e)
  | .ok () =>
      let p3 := step3_extract_outputs p2.1.1 job_id p2.1.2
      (setOutputFiles p3.2
        (writeMessage "Analysis completed successfully"
          (writeStatus .completed p3.1)), .ok ())

/-- `process_job`: the try body under its `except Exception` handler, which
turns any raised exception into the `failed`/`error`/`message` writes.  The
result type records whether the background task itself raises. -/
def process_job (outcome : RunOutcome) (job_id : String)
    (files : List (String × ℕ)) (fs : Fs) (s : ExecState) :
    Except String ExecState :=
  match process_job_try outcome job_id files fs s with
  | (s, .ok ()) => .ok s
  | (s, .error e) =>
      .ok (writeMessage ("Analysis failed: " ++ e)
            (writeError e (writeStatus .failed s)))

/-! ## The registration client (`register_with_orchestrator`,
`periodic_health_check`) -/

/-- Outcome of one outbound HTTP request: a response with a status code and
body, or a raised network exception. -/
inductive NetOutcome where
  | resp (code : ℕ) (text : String)
  | exc (msg : String)
deriving DecidableEq, Repr

/-- `client.post(...)`: yields the response, or raises. -/
def httpPost (o : NetOutcome) : Except String (ℕ × String) :=
  match o with
  | .resp code text => .ok (code, text)
  | .exc msg => .error msg

/-- The `try:` body of `register_with_orchestrator`: posts the registration,
returns `True` on a 200 and `False` on any other status code. -/
def register_try (o : NetOutcome) : Except String Bool :=
  match httpPost o with
  | .ok r => if r.1 == 200 then .ok true else .ok false
  | .error e => .error e

/-- `register_with_orchestrator`, consuming the network's outcomes as a
stream: it performs exactly one POST (one element of the stream) and its
`except Exception` handler turns a raised error into a logged `ok false`. -/
def register_with_orchestrator (net : List NetOutcome) :
    Except String Bool × List NetOutcome :=
  match net with
  | [] => (.ok false, [])
  | o :: rest =>
      (match register_try o with
       | .ok b => .ok b
       | .error _e => .ok false,
       rest)

/-- The `try:` body of one tick of `periodic_health_check`: sleeps, posts the
health check; a non-200 code is only printed, never raised. -/
def health_tick_try (o : NetOutcome) : Except String Bool :=
  match httpPost o with
  | .ok r => .ok (r.1 == 200)
  | .error e => .error e

/-- `periodic_health_check` over a finite prefix of ticks: the `while True`
loop body runs once per tick, its `except Exception` handler swallowing any
raised error and letting the loop continue with the next tick. -/
def periodic_health_check : List NetOutcome → Except String (List Bool)
  | [] => .ok []
  | o :: rest =>
      let tick : Bool :=
        match health_tick_try o with
        | .ok b => b
        | .error _e => false
      match periodic_health_check rest with
      | .ok l => .ok (tick :: l)
      | .error e => .error e

/-! ## Demonstration records used by concrete counterexamples -/

/-- A job record as `process_job` leaves it after a successful run with one
extracted output descriptor. -/
def demoCompleted : JobRec :=
  { status := .completed, progress := some 1,
    message := "Analysis completed successfully",
    output_files := some [mkDescriptor "output1" (
      { dtype := "xlsx", name := "output1.xlsx",
        description := "First processed file saved as XLSX",
        path := OUTPUTS_DIR ++ "/j1/output1.xlsx", required := true }) 5] }

/-- A job record mid-run, its message holding the latest progress line. -/
def demoRunning : JobRec :=
  { status := .running, progress := some ((1 : ℚ)/2),
    message := "Processing data..." }

/-! ## Theorems -/

/-- Claim C10: immediately after the `/analyze` handler stores a job and
before the background task performs any write, the record has status
`pending` and progress `0.0`, and `GET /status` on it returns a snapshot
whose `progress` field is the number `0`, not null. -/
theorem submit_initial_pending_progress_zero (jobs : Jobs) (job_id : String) :
    (analyze jobs job_id).1.find job_id = some initialJob ∧
    initialJob.status = .pending ∧
    initialJob.progress = some 0 ∧
    get_status (analyze jobs job_id).1 job_id =
      .ok [("job_id", .str job_id), ("status", .str "pending"),
           ("progress", .num 0), ("output_files", .null)] := by
  refine ⟨?_, rfl, rfl, ?_⟩ <;>
    simp [analyze, Jobs.set, Jobs.find, get_status, List.lookup, initialJob,
          Status.str]

/-- Claim C4: `GET /results` answers 404 for every unknown job id and 400 for
every known job whose status is not `completed`; in both cases the handler
raises and returns no result payload. -/
theorem get_results_unknown_404_notready_400 :
    (∀ (jobs : Jobs) (job_id : String), jobs.find job_id = none →
       get_results jobs job_id = .error ⟨404, "Job not found"⟩) ∧
    (∀ (jobs : Jobs) (job_id : String) (job : JobRec),
       jobs.find job_id = some job → job.status ≠ .completed →
       get_results jobs job_id = .error ⟨400, "Job not completed"⟩) := by
  constructor
  · intro jobs job_id h
    simp [get_results, h]
  · intro jobs job_id job h hst
    simp [get_results, h, hst]

/-- Witness for `get_results_unknown_404_notready_400` on an empty table and
on a one-job table holding a running job. -/
theorem get_results_unknown_404_notready_400_witness :
    get_results [] "nope" = .error ⟨404, "Job not found"⟩ ∧
    get_results [("j", demoRunning)] "j" = .error ⟨400, "Job not completed"⟩ := by
  constructor
  · exact get_results_unknown_404_notready_400.1 [] "nope" rfl
  · exact get_results_unknown_404_notready_400.2 [("j", demoRunning)] "j"
      demoRunning rfl (by simp [demoRunning])

/-- Claim C5 counterexample: on a completed job the `GET /results` response
dict carries exactly the keys `job_id` and `output_files` — no `results` (or
`result`) field holding a structured payload exists, and indeed `process_job`
never stores one on the record. -/
theorem get_results_completed_lacks_results_field :
    get_results [("j", demoCompleted)] "j"
      = .ok [("job_id", .str "j"),
             ("output_files",
              .arr ((demoCompleted.output_files.getD []).map JVal.obj))] ∧
    ([("job_id", JVal.str "j"),
      ("output_files",
       JVal.arr ((demoCompleted.output_files.getD []).map JVal.obj))].map
        Prod.fst = ["job_id", "output_files"]) ∧
    "results" ∉ ["job_id", "output_files"] ∧
    "result" ∉ ["job_id", "output_files"] := by
  refine ⟨?_, rfl, by decide, by decide⟩
  simp [get_results, Jobs.find, List.lookup, demoCompleted]

/-- Claim C5 amended: for every job whose status is `completed`,
`GET /results` returns only `job_id` and the stored `output_files` list
(defaulting to empty); no structured result payload is returned. -/
theorem get_results_completed_returns_output_files (jobs : Jobs)
    (job_id : String) (job : JobRec) (h : jobs.find job_id = some job)
    (hst : job.status = .completed) :
    get_results jobs job_id =
      .ok [("job_id", .str job_id),
           ("output_files", .arr ((job.output_files.getD []).map JVal.obj))] := by
  simp [get_results, h, hst]

/-- Witness for `get_results_completed_returns_output_files` on a one-job
table holding a completed job. -/
theorem get_results_completed_returns_output_files_witness :
    get_results [("j", demoCompleted)] "j" =
      .ok [("job_id", .str "j"),
           ("output_files",
            .arr ((demoCompleted.output_files.getD []).map JVal.obj))] :=
  get_results_completed_returns_output_files [("j", demoCompleted)] "j"
    demoCompleted rfl rfl

/-- Claim C6 counterexample: for a known running job whose stored message is
a nonempty progress line, the `GET /status` response carries exactly the
declared `JobStatus` fields `job_id`, `status`, `progress`, `output_files`;
the latest `message` line is not part of the snapshot. -/
theorem get_status_lacks_message_field :
    demoRunning.message = "Processing data..." ∧
    get_status [("j", demoRunning)] "j"
      = .ok [("job_id", .str "j"), ("status", .str "running"),
             ("progress", .num ((1 : ℚ)/2)), ("output_files", .null)] ∧
    ([("job_id", JVal.str "j"), ("status", JVal.str "running"),
      ("progress", JVal.num ((1 : ℚ)/2)), ("output_files", JVal.null)].map
        Prod.fst = ["job_id", "status", "progress", "output_files"]) ∧
    "message" ∉ ["job_id", "status", "progress", "output_files"] := by
  refine ⟨rfl, ?_, rfl, by decide⟩
  simp [get_status, Jobs.find, List.lookup, demoRunning, Status.str]

/-- Claim C6 amended: `GET /status` answers 404 for every unknown id, and for
every known job returns the snapshot `{job_id, status, progress,
output_files}` of the record — without the message line. -/
theorem get_status_snapshot :
    (∀ (jobs : Jobs) (job_id : String), jobs.find job_id = none →
       get_status jobs job_id = .error ⟨404, "Job not found"⟩) ∧
    (∀ (jobs : Jobs) (job_id : String) (job : JobRec),
       jobs.find job_id = some job →
       get_status jobs job_id =
         .ok [("job_id", .str job_id),
              ("status", .str job.status.str),
              ("progress", match job.progress with
                           | none => .null
                           | some q => .num q),
              ("output_files", match job.output_files with
                               | none => .null
                               | some l => .arr (l.map JVal.obj))]) := by
  constructor
  · intro jobs job_id h
    simp [get_status, h]
  · intro jobs job_id job h
    simp [get_status, h]

/-- Witness for `get_status_snapshot` on an empty table and a one-job
table. -/
theorem get_status_snapshot_witness :
    get_status [] "nope" = .error ⟨404, "Job not found"⟩ ∧
    get_status [("j", demoRunning)] "j" =
      .ok [("job_id", .str "j"), ("status", .str "running"),
           ("progress", .num ((1 : ℚ)/2)), ("output_files", .null)] := by
  constructor
  · exact get_status_snapshot.1 [] "nope" rfl
  · exact get_status_snapshot.2 [("j", demoRunning)] "j" demoRunning rfl


/-- Folding progress reports through `progress_callback` leaves the status
trace unchanged. -/
@[simp] lemma foldl_pc_strace (ps : List (ℚ × String)) (s : ExecState) :
    (ps.foldl (fun st pm => progress_callback pm st) s).strace = s.strace := by
  induction ps generalizing s with
  | nil => rfl
  | cons p t ih =>
      rw [List.foldl_cons, ih]
      simp [progress_callback, writeProgress, writeMessage]

/-- Folding progress reports leaves the job status unchanged. -/
@[simp] lemma foldl_pc_status (ps : List (ℚ × String)) (s : ExecState) :
    (ps.foldl (fun st pm => progress_callback pm st) s).job.status
      = s.job.status := by
  induction ps generalizing s with
  | nil => rfl
  | cons p t ih =>
      rw [List.foldl_cons, ih]
      simp [progress_callback, writeProgress, writeMessage]

/-- Folding progress reports leaves the error field unchanged. -/
@[simp] lemma foldl_pc_error (ps : List (ℚ × String)) (s : ExecState) :
    (ps.foldl (fun st pm => progress_callback pm st) s).job.error
      = s.job.error := by
  induction ps generalizing s with
  | nil => rfl
  | cons p t ih =>
      rw [List.foldl_cons, ih]
      simp [progress_callback, writeProgress, writeMessage]

/-- Folding progress reports leaves the output_files field unchanged. -/
@[simp] lemma foldl_pc_output_files (ps : List (ℚ × String)) (s : ExecState) :
    (ps.foldl (fun st pm => progress_callback pm st) s).job.output_files
      = s.job.output_files := by
  induction ps generalizing s with
  | nil => rfl
  | cons p t ih =>
      rw [List.foldl_cons, ih]
      simp [progress_callback, writeProgress, writeMessage]

/-- Folding progress reports appends exactly the mapped fractions
`0.3 + fraction * 0.6` to the progress trace, in report order. -/
@[simp] lemma foldl_pc_ptrace (ps : List (ℚ × String)) (s : ExecState) :
    (ps.foldl (fun st pm => progress_callback pm st) s).ptrace
      = s.ptrace ++ ps.map (fun pm => (3 : ℚ)/10 + pm.1 * ((6 : ℚ)/10)) := by
  induction ps generalizing s with
  | nil => simp
  | cons p t ih =>
      rw [List.foldl_cons, ih]
      simp [progress_callback, writeProgress, writeMessage]

/-- Claim C2 counterexample: cancelling a job whose status is the terminal
`completed` is not a no-op — the handler unconditionally rewrites the status,
so the stored record changes from `completed` to `cancelled`. -/
theorem cancel_completed_job_changes_status :
    demoCompleted.status = .completed ∧
    cancel_job [("j", demoCompleted)] "j"
      = .ok (Jobs.set [("j", demoCompleted)] "j"
               { demoCompleted with status := .cancelled },
             [("message", .str "Job cancelled")]) ∧
    (Jobs.set [("j", demoCompleted)] "j"
       { demoCompleted with status := .cancelled }).find "j"
      = some { demoCompleted with status := .cancelled } ∧
    Status.cancelled ≠ Status.completed := by
  refine ⟨rfl, ?_, ?_, by decide⟩
  · simp [cancel_job, Jobs.find, List.lookup]
  · simp [Jobs.set, Jobs.find, List.lookup]

/-- Claim C2 amended: `DELETE /jobs` on any known job — terminal or not —
overwrites its status with `cancelled`; and the background execution path
never checks for cancellation: from any starting status (`cancelled`
included) it writes `running` and then finishes at `completed` or `failed`,
its status writes being exactly those two. -/
theorem cancel_and_execution_ignore_terminal_states :
    (∀ (jobs : Jobs) (job_id : String) (job : JobRec),
       jobs.find job_id = some job →
       cancel_job jobs job_id =
         .ok (jobs.set job_id { job with status := .cancelled },
              [("message", .str "Job cancelled")]) ∧
       (jobs.set job_id { job with status := .cancelled }).find job_id
         = some { job with status := .cancelled }) ∧
    (∀ (outcome : RunOutcome) (job_id : String) (files : List (String × ℕ))
       (fs : Fs) (s0 : ExecState),
       ∃ s', process_job outcome job_id files fs s0 = .ok s' ∧
         (s'.job.status = .completed ∨ s'.job.status = .failed) ∧
         s'.strace = s0.strace ++ [.running, s'.job.status]) := by
  constructor
  · intro jobs job_id job h
    exact ⟨by simp [cancel_job, h], by simp [Jobs.set, Jobs.find, List.lookup]⟩
  · intro outcome job_id files fs s0
    simp only [process_job, process_job_try, step1_store_files,
               step2_execute_analysis, step3_extract_outputs]
    rcases houtcome : outcome.ret with e | v
    · refine ⟨_, rfl, Or.inr ?_, ?_⟩ <;>
        simp [writeMessage, writeError, writeStatus, writeProgress]
    · by_cases hc : v.isStr "completed"
      · simp only [hc]
        refine ⟨_, rfl, Or.inl ?_, ?_⟩ <;>
          simp [writeMessage, writeError, writeStatus, writeProgress,
                setOutputFiles]
      · simp only [hc]
        refine ⟨_, rfl, Or.inr ?_, ?_⟩ <;>
          simp [writeMessage, writeError, writeStatus, writeProgress]

/-- Witness for `cancel_and_execution_ignore_terminal_states`: its cancel
part applied to a one-job table holding a completed job. -/
theorem cancel_and_execution_ignore_terminal_states_witness :
    cancel_job [("j", demoCompleted)] "j" =
      .ok (Jobs.set [("j", demoCompleted)] "j"
             { demoCompleted with status := .cancelled },
           [("message", .str "Job cancelled")]) :=
  (cancel_and_execution_ignore_terminal_states.1 [("j", demoCompleted)] "j"
    demoCompleted rfl).1

/-- The TypeError message raised by the call at `app.py:306` once resolved
against the signature of `analysis.run.run_analysis`. -/
def typeErrorMsg : String :=
  "run_analysis() missing 3 required positional arguments: parameters, output_files, processing_files"

/-- Claim C3: the background task catches every exception its try body
raises — whenever the body escapes with an exception `e`, the task still
returns normally (it never propagates the exception to its caller) and the
job ends with status `failed`, `error = e` and the corresponding failure
message. -/
theorem process_job_contains_failures (outcome : RunOutcome) (job_id : String)
    (files : List (String × ℕ)) (fs : Fs) (s0 : ExecState) :
    (∃ s', process_job outcome job_id files fs s0 = .ok s') ∧
    (∀ s1 e, process_job_try outcome job_id files fs s0 = (s1, .error e) →
       ∃ s', process_job outcome job_id files fs s0 = .ok s' ∧
         s'.job.status = .failed ∧ s'.job.error = some e ∧
         s'.job.message = "Analysis failed: " ++ e) := by
  constructor
  · rcases hpr : process_job_try outcome job_id files fs s0 with ⟨s1, r⟩
    cases r with
    | ok u =>
        cases u
        exact ⟨s1, by unfold process_job; rw [hpr]⟩
    | error e =>
        exact ⟨writeMessage ("Analysis failed: " ++ e)
                 (writeError e (writeStatus .failed s1)),
               by unfold process_job; rw [hpr]⟩
  · intro s1 e hpr
    refine ⟨_, by unfold process_job; rw [hpr], ?_, ?_, ?_⟩ <;>
      simp [writeMessage, writeError, writeStatus]

/-- Final execution state of a submitted job processed with the actual
`app.py:306` call outcome and no uploaded files. -/
def failedFinal : ExecState :=
  (process_job (run_analysis_call "j") "j" [] [] submittedState).toOption.getD
    submittedState

/-- Witness for `process_job_contains_failures`: the concrete background run
of a submitted job with the call outcome of `app.py:306`, whose try body
raises the TypeError. -/
theorem process_job_contains_failures_witness :
    failedFinal.job.status = .failed ∧
    failedFinal.job.error = some typeErrorMsg ∧
    failedFinal.job.message = "Analysis failed: " ++ typeErrorMsg := by
  obtain ⟨s', h1, h2, h3, h4⟩ :=
    (process_job_contains_failures (run_analysis_call "j") "j" [] []
        submittedState).2
      (process_job_try (run_analysis_call "j") "j" [] [] submittedState).1
      typeErrorMsg rfl
  have hs : failedFinal = s' := by
    simp only [failedFinal, h1, Except.toOption, Option.getD]
  rw [hs]
  exact ⟨h2, h3, h4⟩

/-- Final execution state of the Scenario A submission (both required CSV
files uploaded) processed by the background path as written in `app.py`. -/
def scenarioAFinal : ExecState :=
  (process_job (run_analysis_call "j1") "j1"
      [("file1.csv", 10), ("file2.csv", 20)] [] submittedState).toOption.getD
    submittedState

/-- Claim C1 (refuted by the code): for the submission of Scenario A, with
both required CSV input files present, the background path does not complete:
the call `run_analysis(job_id, progress_callback=progress_callback)` binds
only one positional argument of `analysis.run.run_analysis`, so it raises a
TypeError, and the job ends `failed` with no `output_files` — never
`completed`. -/
theorem scenarioA_background_path_fails :
    process_job (run_analysis_call "j1") "j1"
        [("file1.csv", 10), ("file2.csv", 20)] [] submittedState
      = .ok scenarioAFinal ∧
    scenarioAFinal.job.status = .failed ∧
    scenarioAFinal.job.status ≠ .completed ∧
    scenarioAFinal.job.output_files = none ∧
    scenarioAFinal.job.error = some typeErrorMsg := by
  refine ⟨rfl, rfl, by decide, rfl, rfl⟩

/-- A lower-bounded non-decreasing list stays non-decreasing when the bound
is prepended. -/
lemma chain'_le_cons_of_lb (lo : ℚ) (M : List ℚ)
    (hM : List.Chain' (· ≤ ·) M) (hlb : ∀ x ∈ M, lo ≤ x) :
    List.Chain' (· ≤ ·) (lo :: M) :=
  List.chain'_cons'.2 ⟨fun y hy => hlb y (List.mem_of_mem_head? hy), hM⟩

/-- A non-decreasing list bounded between `lo` and `hi` can be sandwiched
between `lo` and a non-decreasing tail starting at `hi`. -/
lemma chain'_le_bridge (lo hi : ℚ) (hlohi : lo ≤ hi) (M T : List ℚ)
    (hM : List.Chain' (· ≤ ·) M) (hT : List.Chain' (· ≤ ·) (hi :: T))
    (hlb : ∀ x ∈ M, lo ≤ x) (hub : ∀ x ∈ M, x ≤ hi) :
    List.Chain' (· ≤ ·) (lo :: (M ++ hi :: T)) := by
  refine List.chain'_cons'.2 ⟨?_, ?_⟩
  · intro y hy
    cases M with
    | nil =>
        simp only [List.nil_append, List.head?_cons, Option.mem_def,
                   Option.some.injEq] at hy
        exact hy ▸ hlohi
    | cons a t =>
        simp only [List.cons_append, List.head?_cons, Option.mem_def,
                   Option.some.injEq] at hy
        exact hy ▸ hlb a (by simp)
  · refine List.Chain'.append hM hT ?_
    intro x hx y hy
    simp only [List.head?_cons, Option.mem_def, Option.some.injEq] at hy
    subst hy
    rcases List.mem_getLast?_eq_getLast hx with ⟨hne, hxl⟩
    rw [hxl]
    exact hub _ (List.getLast_mem hne)

/-- The progress trace of a failed run — the fixed prefix written by steps 1
and 2 followed by the mapped report fractions — is non-decreasing when the
mapped fractions are non-decreasing and bounded below by `0.3`. -/
lemma trace_chain_failure (M : List ℚ)
    (hM : List.Chain' (· ≤ ·) M) (hlb : ∀ x ∈ M, (3 : ℚ)/10 ≤ x) :
    List.Chain' (· ≤ ·) ((0 : ℚ) :: 1/10 :: 3/10 :: 3/10 :: M) := by
  have h := chain'_le_cons_of_lb ((3 : ℚ)/10) M hM hlb
  refine List.Chain'.cons (by norm_num) (List.Chain'.cons (by norm_num)
    (List.Chain'.cons (by norm_num) h))

/-- The progress trace of a successful run is non-decreasing and ends at 1
when the mapped fractions are non-decreasing and lie in `[0.3, 0.9]`. -/
lemma trace_chain_success (M : List ℚ)
    (hM : List.Chain' (· ≤ ·) M) (hlb : ∀ x ∈ M, (3 : ℚ)/10 ≤ x)
    (hub : ∀ x ∈ M, x ≤ (9 : ℚ)/10) :
    List.Chain' (· ≤ ·)
      ((0 : ℚ) :: 1/10 :: 3/10 :: 3/10 :: (M ++ [9/10, 9/10, 1])) ∧
    ((0 : ℚ) :: 1/10 :: 3/10 :: 3/10 :: (M ++ [9/10, 9/10, 1])).getLast?
      = some 1 := by
  constructor
  · have h := chain'_le_bridge ((3 : ℚ)/10) ((9 : ℚ)/10) (by norm_num) M
      [(9 : ℚ)/10, 1] hM
      (by refine List.Chain'.cons (by norm_num) ?_
          exact List.Chain'.cons (by norm_num) (List.chain'_singleton 1))
      hlb hub
    refine List.Chain'.cons (by norm_num) (List.Chain'.cons (by norm_num)
      (List.Chain'.cons (by norm_num) h))
  · rw [← List.cons_append, ← List.cons_append, ← List.cons_append,
        ← List.cons_append, List.getLast?_append]
    rfl

/-- Claim C7: for a single job started from its submitted state, the sequence
of progress values written by the execution path (hence observable by a
single repeatedly polling reader) is non-decreasing, and ends at 1.0 when
the run completes — provided the analysis callable reports non-decreasing
fractions within [0, 1]. -/
theorem progress_trace_nondecreasing (outcome : RunOutcome) (job_id : String)
    (files : List (String × ℕ)) (fs : Fs)
    (hchain : List.Chain' (· ≤ ·) (outcome.reports.map Prod.fst))
    (hrange : ∀ p ∈ outcome.reports.map Prod.fst, 0 ≤ p ∧ p ≤ 1) :
    ∀ s', process_job outcome job_id files fs submittedState = .ok s' →
      List.Chain' (· ≤ ·) s'.ptrace ∧
      (s'.job.status = .completed → s'.ptrace.getLast? = some 1) := by
  have hMeq : outcome.reports.map (fun pm => (3:ℚ)/10 + pm.1 * ((6:ℚ)/10))
      = (outcome.reports.map Prod.fst).map
          (fun q => (3:ℚ)/10 + q * ((6:ℚ)/10)) := by
    simp [List.map_map, Function.comp]
  have hMchain : List.Chain' (· ≤ ·)
      (outcome.reports.map (fun pm => (3:ℚ)/10 + pm.1 * ((6:ℚ)/10))) := by
    rw [hMeq, List.chain'_map]
    exact hchain.imp (fun a b hab => by nlinarith)
  have hMlb : ∀ x ∈ outcome.reports.map
      (fun pm => (3:ℚ)/10 + pm.1 * ((6:ℚ)/10)), (3:ℚ)/10 ≤ x := by
    intro x hx
    rw [hMeq, List.mem_map] at hx
    obtain ⟨q, hq, rfl⟩ := hx
    have h0 := (hrange q hq).1
    nlinarith
  have hMub : ∀ x ∈ outcome.reports.map
      (fun pm => (3:ℚ)/10 + pm.1 * ((6:ℚ)/10)), x ≤ (9:ℚ)/10 := by
    intro x hx
    rw [hMeq, List.mem_map] at hx
    obtain ⟨q, hq, rfl⟩ := hx
    have h1 := (hrange q hq).2
    nlinarith
  intro s' hs'
  simp only [process_job, process_job_try, step1_store_files,
             step2_execute_analysis, step3_extract_outputs] at hs'
  rcases houtcome : outcome.ret with e | v
  · rw [houtcome] at hs'
    simp only [Except.ok.injEq] at hs'
    subst hs'
    constructor
    · have h := trace_chain_failure _ hMchain hMlb
      simpa [writeMessage, writeError, writeStatus, writeProgress,
             submittedState, initialJob] using h
    · intro hc
      simp [writeMessage, writeError, writeStatus, writeProgress,
            submittedState, initialJob] at hc
  · rw [houtcome] at hs'
    by_cases hcv : v.isStr "completed" <;> simp only [hcv] at hs'
    · simp only [if_true, Except.ok.injEq] at hs'
      subst hs'
      constructor
      · have h := (trace_chain_success _ hMchain hMlb hMub).1
        simpa [writeMessage, writeError, writeStatus, writeProgress,
               setOutputFiles, submittedState, initialJob] using h
      · intro hc
        have h := (trace_chain_success _ hMchain hMlb hMub).2
        simpa [writeMessage, writeError, writeStatus, writeProgress,
               setOutputFiles, submittedState, initialJob] using h
    · simp only [Bool.false_eq_true, if_false, Except.ok.injEq] at hs'
      subst hs'
      constructor
      · have h := trace_chain_failure _ hMchain hMlb
        simpa [writeMessage, writeError, writeStatus, writeProgress,
               submittedState, initialJob] using h
      · intro hc
        simp [writeMessage, writeError, writeStatus, writeProgress,
              submittedState, initialJob] at hc

/-- A well-behaved analysis outcome: non-decreasing in-range reports, a
written output file, and a `"completed"` return value. -/
def demoOutcome : RunOutcome :=
  { reports := [((1:ℚ)/10, "Loading data..."), ((1:ℚ)/2, "Processing data..."),
                ((4:ℚ)/5, "Saving results..."), (1, "Analysis completed!")],
    fsWrites := [(OUTPUTS_DIR ++ "/j1/output1.xlsx", 5)],
    ret := .ok (.str "completed") }

/-- The final execution state of the `demoOutcome` run. -/
def demoFinal : ExecState :=
  (process_job demoOutcome "j1" [("file1.csv", 10), ("file2.csv", 20)] []
      submittedState).toOption.getD submittedState

/-- Witness for `progress_trace_nondecreasing`: the `demoOutcome` run. -/
theorem progress_trace_nondecreasing_witness :
    List.Chain' (· ≤ ·) demoFinal.ptrace ∧
    (demoFinal.job.status = .completed →
      demoFinal.ptrace.getLast? = some 1) :=
  progress_trace_nondecreasing demoOutcome "j1"
    [("file1.csv", 10), ("file2.csv", 20)] []
    (by norm_num [demoOutcome, List.chain'_cons, List.chain'_singleton])
    (by intro p hp
        simp [demoOutcome] at hp
        rcases hp with rfl | rfl | rfl | rfl <;> norm_num)
    demoFinal rfl

/-- Claim C8: the single registration attempt consumes exactly one network
outcome — success or failure — leaving the rest of the stream untouched (no
retry) and always returning normally; and the heartbeat loop never raises
and never stops early: it processes every tick even after failed ones. -/
theorem registration_and_heartbeat_swallow_failures :
    (∀ (o : NetOutcome) (rest : List NetOutcome),
       ∃ b, register_with_orchestrator (o :: rest) = (.ok b, rest)) ∧
    (∀ net : List NetOutcome,
       ∃ l, periodic_health_check net = .ok l ∧ l.length = net.length) := by
  constructor
  · intro o rest
    cases o with
    | resp code text =>
        refine ⟨code == 200, ?_⟩
        cases h : code == 200 <;>
          simp [register_with_orchestrator, register_try, httpPost, h]
    | exc msg =>
        exact ⟨false, by simp [register_with_orchestrator, register_try,
                               httpPost]⟩
  · intro net
    induction net with
    | nil => exact ⟨[], rfl, rfl⟩
    | cons o rest ih =>
        obtain ⟨l, hl, hlen⟩ := ih
        refine ⟨(match health_tick_try o with
                 | .ok b => b
                 | .error _e => false) :: l, ?_, by simp [hlen]⟩
        simp [periodic_health_check, hl]

/-- The first declared output of job `j1`, as `get_output_files` builds it. -/
def demoOutputFi : FileInfo :=
  { dtype := "xlsx", name := "output1.xlsx",
    description := "First processed file saved as XLSX",
    path := OUTPUTS_DIR ++ "/" ++ "j1" ++ "/output1.xlsx", required := true }

/-- Claim C9 counterexample: on a disk holding only the first declared
output (5 bytes), the extracted descriptor's field set is not exactly
{key, filename, dtype, description, size, required} — the code also stores a
`path` field. -/
theorem output_descriptor_has_extra_path_field :
    (step3_extract_outputs [(demoOutputFi.path, 5)] "j1" submittedState).2
      = [mkDescriptor "output1" demoOutputFi 5] ∧
    (mkDescriptor "output1" demoOutputFi 5).map Prod.fst
      = ["key", "filename", "dtype", "description", "path", "size",
         "required"] ∧
    (mkDescriptor "output1" demoOutputFi 5).map Prod.fst
      ≠ ["key", "filename", "dtype", "description", "size", "required"] := by
  refine ⟨rfl, rfl, by decide⟩

/-- Claim C9 amended: each descriptor extracted by the execution path carries
exactly the fields {key, filename, dtype, description, path, size, required},
corresponds to a declared output file that exists on disk with the recorded
size, and `output_files` is populated only on successful completion. -/
theorem output_descriptors_amended :
    (∀ (fs : Fs) (job_id : String) (s : ExecState) (d : Descriptor),
       d ∈ (step3_extract_outputs fs job_id s).2 →
       d.map Prod.fst = ["key", "filename", "dtype", "description", "path",
                         "size", "required"] ∧
       ∃ k fi sz, (k, fi) ∈ get_output_files job_id ∧
         List.lookup fi.path fs = some sz ∧ d = mkDescriptor k fi sz) ∧
    (∀ (outcome : RunOutcome) (job_id : String) (files : List (String × ℕ))
       (fs : Fs) (s0 s' : ExecState),
       s0.job.output_files = none →
       process_job outcome job_id files fs s0 = .ok s' →
       s'.job.output_files ≠ none → s'.job.status = .completed) := by
  constructor
  · intro fs job_id s d hd
    simp only [step3_extract_outputs, List.mem_filterMap] at hd
    obtain ⟨kf, hkf, hf⟩ := hd
    rcases hlk : List.lookup kf.2.path fs with _ | sz
    · rw [hlk] at hf
      simp at hf
    · rw [hlk] at hf
      simp only [Option.some.injEq] at hf
      subst hf
      exact ⟨by simp [mkDescriptor], kf.1, kf.2, sz, by simpa using hkf,
             hlk, rfl⟩
  · intro outcome job_id files fs s0 s' h0 hpj hof
    simp only [process_job, process_job_try, step1_store_files,
               step2_execute_analysis, step3_extract_outputs] at hpj
    rcases houtcome : outcome.ret with e | v
    · rw [houtcome] at hpj
      simp only [Except.ok.injEq] at hpj
      subst hpj
      exact absurd (by simp [writeMessage, writeError, writeStatus,
                             writeProgress, h0]) hof
    · rw [houtcome] at hpj
      by_cases hcv : v.isStr "completed" <;> simp only [hcv] at hpj
      · simp only [if_true, Except.ok.injEq] at hpj
        subst hpj
        simp [setOutputFiles, writeMessage, writeStatus, writeProgress]
      · simp only [Bool.false_eq_true, if_false, Except.ok.injEq] at hpj
        subst hpj
        exact absurd (by simp [writeMessage, writeError, writeStatus,
                               writeProgress, h0]) hof

/-- Witness for `output_descriptors_amended`: the concrete descriptor of the
first declared output of job `j1`. -/
theorem output_descriptors_amended_witness :
    (mkDescriptor "output1" demoOutputFi 5).map Prod.fst
      = ["key", "filename", "dtype", "description", "path", "size",
         "required"] ∧
    ∃ k fi sz, (k, fi) ∈ get_output_files "j1" ∧
      List.lookup fi.path [(demoOutputFi.path, 5)] = some sz ∧
      mkDescriptor "output1" demoOutputFi 5 = mkDescriptor k fi sz :=
  output_descriptors_amended.1 [(demoOutputFi.path, 5)] "j1" submittedState
    (mkDescriptor "output1" demoOutputFi 5)
    (by rw [output_descriptor_has_extra_path_field.1]
        exact List.mem_singleton_self _)
